import Mathlib

/-!
Verification of the `meta-quick/spire` persistence layer (package `sqlstore`)
and the agent CLI command registry.

The repository sources at hand declare the gorm data model (`Bundle`,
`AttestedNode`, `RegisteredEntry`, `JoinToken`, the event rows, ...) and the
agent CLI dispatch table.  The store operations themselves
(`UpdateRegisteredEntry`, `PromoteNodeRotation`, `ConsumeJoinToken`, ...) are
not part of the given sources; they are modelled from the specification and
marked as such in their doc comments.

Conventions of the shallow embedding:
* Go `time.Time` becomes `Nat` (an abstract instant); `*time.Time` becomes
  `Option Nat`.
* Go `[]byte` becomes `List Nat`.
* Go `int32` / `int64` become `Int`.
* The gorm `many2many:federated_registration_entries` association between
  `RegisteredEntry` and `Bundle` is represented on the entry side as the list
  of federated trust-domain names (`FederatesWith : List String`): one list
  element corresponds to one association row.
-/

namespace Spire

/-- `Model` from the source: base for other models, like gorm.Model without
`DeletedAt` (no soft-delete support). -/
structure Model where
  ID : Nat
  CreatedAt : Nat
  UpdatedAt : Nat
deriving DecidableEq

/-- `Bundle` from the source: a trust bundle keyed by a unique trust domain.
The `FederatedEntries` many2many projection is represented on the entry side
(see `RegisteredEntry.FederatesWith`). -/
structure Bundle where
  model : Model
  TrustDomain : String
  Data : List Nat
deriving DecidableEq

/-- `NodeSelector` from the source: a node selector keyed by spiffe ID.
`Typ` embeds the Go field `Type` (a reserved word in Lean). -/
structure NodeSelector where
  model : Model
  SpiffeID : String
  Typ : String
  Value : String
deriving DecidableEq

/-- `AttestedNode` from the source: an attested node (agent) with current
serial/expiry, optional pending (`New*`) serial/expiry, and a re-attestation
flag. -/
structure AttestedNode where
  model : Model
  SpiffeID : String
  DataType : String
  SerialNumber : String
  ExpiresAt : Nat
  NewSerialNumber : String
  NewExpiresAt : Option Nat
  CanReattest : Bool
  Selectors : List NodeSelector
deriving DecidableEq

/-- `AttestedNodeEvent` from the source: holds the SPIFFE ID of a node that
had an event. -/
structure AttestedNodeEvent where
  model : Model
  SpiffeID : String
deriving DecidableEq

/-- `V3AttestedNode` from the source: the legacy projection of an attested
node, without the pending-rotation fields and the `CanReattest` flag. -/
structure V3AttestedNode where
  model : Model
  SpiffeID : String
  DataType : String
  SerialNumber : String
  ExpiresAt : Nat
deriving DecidableEq

/-- `Selector` from the source: entry-scoped selector child row.
`Typ` embeds the Go field `Type` (a reserved word in Lean). -/
structure Selector where
  model : Model
  RegisteredEntryID : Nat
  Typ : String
  Value : String
deriving DecidableEq

/-- `DNSName` from the source: a DNS name child row of a registration entry. -/
structure DNSName where
  model : Model
  RegisteredEntryID : Nat
  Value : String
deriving DecidableEq

/-- `RegisteredEntry` from the source: a registered entity entry.  The
many2many `FederatesWith` association is the list of federated trust-domain
names (one element per association row). -/
structure RegisteredEntry where
  model : Model
  EntryID : String
  SpiffeID : String
  ParentID : String
  TTL : Int
  Selectors : List Selector
  FederatesWith : List String
  Admin : Bool
  Downstream : Bool
  Expiry : Int
  DNSList : List DNSName
  RevisionNumber : Int
  StoreSvid : Bool
  Hint : String
  JWTSvidTTL : Int
deriving DecidableEq

/-- `RegisteredEntryEvent` from the source: holds the entry id of a
registered entry that had an event. -/
structure RegisteredEntryEvent where
  model : Model
  EntryID : String
deriving DecidableEq

/-- `JoinToken` from the source: a join token with a unique token string and
an expiry. -/
structure JoinToken where
  model : Model
  Token : String
  Expiry : Int
deriving DecidableEq

/-- `FederatedTrustDomain` from the source. -/
structure FederatedTrustDomain where
  model : Model
  TrustDomain : String
  BundleEndpointURL : String
  BundleEndpointProfile : String
  EndpointSPIFFEID : String
  Implicit : Bool
deriving DecidableEq

/-- `CAJournal` from the source. -/
structure CAJournal where
  model : Model
  Data : List Nat
  ActiveX509AuthorityID : String
  ActiveJWTAuthorityID : String
deriving DecidableEq

/-- `Migration` from the source: schema version and code version. -/
structure Migration where
  model : Model
  Version : Int
  CodeVersion : String
deriving DecidableEq

/-- `AttestedNode.TableName` from the source. -/
def AttestedNode.TableName : String := "attested_node_entries"

/-- `AttestedNodeEvent.TableName` from the source. -/
def AttestedNodeEvent.TableName : String := "attested_node_entries_events"

/-- `V3AttestedNode.TableName` from the source. -/
def V3AttestedNode.TableName : String := "attested_node_entries"

/-- `NodeSelector.TableName` from the source. -/
def NodeSelector.TableName : String := "node_resolver_map_entries"

/-- `RegisteredEntryEvent.TableName` from the source. -/
def RegisteredEntryEvent.TableName : String := "registered_entries_events"

/-- `DNSName.TableName` from the source. -/
def DNSName.TableName : String := "dns_names"

/-- `FederatedTrustDomain.TableName` from the source. -/
def FederatedTrustDomain.TableName : String := "federated_trust_domains"

/-- Reading a stored `AttestedNode` row through the `V3AttestedNode` model:
both models map to the same table, and gorm matches columns by name, so the
V3 model receives exactly the columns it declares (`ID`, `CreatedAt`,
`UpdatedAt`, `SpiffeID`, `DataType`, `SerialNumber`, `ExpiresAt`) and drops
the rest (`NewSerialNumber`, `NewExpiresAt`, `CanReattest`). -/
def v3Read (n : AttestedNode) : V3AttestedNode :=
  { model := n.model
    SpiffeID := n.SpiffeID
    DataType := n.DataType
    SerialNumber := n.SerialNumber
    ExpiresAt := n.ExpiresAt }

/-- The commands the agent CLI registry can construct, one constructor per
distinct factory result in `cmd/spire-agent/cli/cli.go` (`api.NewFetchX509Command`,
`api.NewFetchJWTCommand`, `api.NewValidateJWTCommand`, `api.WatchCLI`,
`run.NewRunCommand`, `healthcheck.NewHealthCheckCommand`,
`validate.NewValidateCommand`). -/
inductive AgentCommand where
  | fetchX509
  | fetchJWT
  | validateJWT
  | watch
  | runAgent
  | healthCheck
  | validateConfig
deriving DecidableEq

/-- The `c.Commands` map built by `CLI.Run` in `cmd/spire-agent/cli/cli.go`:
command name to the command its factory constructs. -/
def commandRegistry : String → Option AgentCommand
  | "api fetch" => some AgentCommand.fetchX509
  | "api fetch x509" => some AgentCommand.fetchX509
  | "api fetch jwt" => some AgentCommand.fetchJWT
  | "api validate jwt" => some AgentCommand.validateJWT
  | "api watch" => some AgentCommand.watch
  | "run" => some AgentCommand.runAgent
  | "healthcheck" => some AgentCommand.healthCheck
  | "validate" => some AgentCommand.validateConfig
  | _ => none

/-- Dispatching a command name with an argument list under any command
behaviour (the semantics of a constructed command applied to its arguments):
look the name up in the registry and run the found command on the
arguments. -/
def dispatch (behaviour : AgentCommand → List String → Int)
    (name : String) (args : List String) : Option Int :=
  (commandRegistry name).map (fun c => behaviour c args)

/-- Error taxonomy of the store, from the specification (the kinds the
modelled operations can return). -/
inductive StoreError where
  | NotFound
  | AlreadyExists
  | Conflict
  | Invalid
deriving DecidableEq

/-- The state of the datastore: one list per table, plus the autoincrement
counters (one for entity rows, one per event log, matching gorm's per-table
primary-key sequences). -/
structure StoreState where
  bundles : List Bundle
  nodes : List AttestedNode
  entries : List RegisteredEntry
  joinTokens : List JoinToken
  nodeEvents : List AttestedNodeEvent
  entryEvents : List RegisteredEntryEvent
  nextEntityID : Nat
  nextNodeEventID : Nat
  nextEntryEventID : Nat
deriving DecidableEq

/-- The empty datastore (gorm autoincrement starts at 1). -/
def initState : StoreState :=
  { bundles := [], nodes := [], entries := [], joinTokens := [],
    nodeEvents := [], entryEvents := [],
    nextEntityID := 1, nextNodeEventID := 1, nextEntryEventID := 1 }

/-- Look a bundle up by its unique trust domain. -/
def findBundle (s : StoreState) (td : String) : Option Bundle :=
  s.bundles.find? (fun b => b.TrustDomain == td)

/-- Look an attested node up by its unique SPIFFE ID. -/
def findNode (s : StoreState) (sid : String) : Option AttestedNode :=
  s.nodes.find? (fun n => n.SpiffeID == sid)

/-- Look a registered entry up by its unique entry id. -/
def findEntry (s : StoreState) (eid : String) : Option RegisteredEntry :=
  s.entries.find? (fun e => e.EntryID == eid)

/-- Look a join token up by its unique token string. -/
def findToken (s : StoreState) (tok : String) : Option JoinToken :=
  s.joinTokens.find? (fun t => t.Token == tok)

/-- Update the first element satisfying `p` in place (the embedding of a SQL
update keyed on a unique column). -/
def updateBy (p : α → Bool) (f : α → α) : List α → List α
  | [] => []
  | x :: xs => if p x then f x :: xs else x :: updateBy p f xs

/-- The mutable fields of a registered entry, as supplied by a create or
update call (`Modelled from the spec:` the caller never supplies identifier
or timestamps). -/
structure EntryParams where
  SpiffeID : String
  ParentID : String
  TTL : Int
  Selectors : List Selector
  FederatesWith : List String
  Admin : Bool
  Downstream : Bool
  Expiry : Int
  DNSList : List DNSName
  StoreSvid : Bool
  Hint : String
  JWTSvidTTL : Int
deriving DecidableEq

/-- Modelled from the spec: a successful `UpdateRegisteredEntry` "atomically
replaces mutable fields, replaces the child Selector/DNS sets wholesale, and
increments the revision".  Child rows are re-keyed to the owning entry's
row id. -/
def applyEntryParams (now : Nat) (u : EntryParams) (e : RegisteredEntry) : RegisteredEntry :=
  { model := { e.model with UpdatedAt := now }
    EntryID := e.EntryID
    SpiffeID := u.SpiffeID
    ParentID := u.ParentID
    TTL := u.TTL
    Selectors := u.Selectors.map (fun sel => { sel with RegisteredEntryID := e.model.ID })
    FederatesWith := u.FederatesWith
    Admin := u.Admin
    Downstream := u.Downstream
    Expiry := u.Expiry
    DNSList := u.DNSList.map (fun d => { d with RegisteredEntryID := e.model.ID })
    RevisionNumber := e.RevisionNumber + 1
    StoreSvid := u.StoreSvid
    Hint := u.Hint
    JWTSvidTTL := u.JWTSvidTTL }

/-- A freshly created registered entry: assigned row id and timestamps, the
caller's fields, and revision number 0. -/
def newEntry (now id : Nat) (eid : String) (u : EntryParams) : RegisteredEntry :=
  { model := ⟨id, now, now⟩
    EntryID := eid
    SpiffeID := u.SpiffeID
    ParentID := u.ParentID
    TTL := u.TTL
    Selectors := u.Selectors.map (fun sel => { sel with RegisteredEntryID := id })
    FederatesWith := u.FederatesWith
    Admin := u.Admin
    Downstream := u.Downstream
    Expiry := u.Expiry
    DNSList := u.DNSList.map (fun d => { d with RegisteredEntryID := id })
    RevisionNumber := 0
    StoreSvid := u.StoreSvid
    Hint := u.Hint
    JWTSvidTTL := u.JWTSvidTTL }

/-- Field mask for `UpdateAttestedNode`: which fields the update touches.
Modelled from the spec: "Update for Attested Node supports a field mask so
unrelated fields are untouched"; the pending rotation pair is changed only
through the rotation protocol (`PrepareNodeRotation` / `PromoteNodeRotation`). -/
structure NodeMask where
  DataType : Bool
  SerialNumber : Bool
  ExpiresAt : Bool
  CanReattest : Bool
deriving DecidableEq

/-- New field values for a masked `UpdateAttestedNode`. -/
structure NodeParams where
  DataType : String
  SerialNumber : String
  ExpiresAt : Nat
  CanReattest : Bool
deriving DecidableEq

/-- Apply a masked node update: only the masked fields change. -/
def applyNodeMask (now : Nat) (m : NodeMask) (u : NodeParams) (n : AttestedNode) : AttestedNode :=
  { n with
    model := { n.model with UpdatedAt := now }
    DataType := if m.DataType then u.DataType else n.DataType
    SerialNumber := if m.SerialNumber then u.SerialNumber else n.SerialNumber
    ExpiresAt := if m.ExpiresAt then u.ExpiresAt else n.ExpiresAt
    CanReattest := if m.CanReattest then u.CanReattest else n.CanReattest }

/-- Modelled from the spec: `PrepareNodeRotation` "sets the pending fields";
it does not touch the current serial/expiry. -/
def prepareNode (now : Nat) (newSerial : String) (newExpiry : Nat)
    (n : AttestedNode) : AttestedNode :=
  { n with
    model := { n.model with UpdatedAt := now }
    NewSerialNumber := newSerial
    NewExpiresAt := some newExpiry }

/-- Modelled from the spec: `PromoteNodeRotation` "copies pending into
current and clears pending". -/
def promoteNode (now : Nat) (n : AttestedNode) : AttestedNode :=
  { n with
    model := { n.model with UpdatedAt := now }
    SerialNumber := n.NewSerialNumber
    ExpiresAt := n.NewExpiresAt.getD n.ExpiresAt
    NewSerialNumber := ""
    NewExpiresAt := none }

/-- A freshly created bundle row. -/
def newBundle (now id : Nat) (td : String) (data : List Nat) : Bundle :=
  { model := ⟨id, now, now⟩, TrustDomain := td, Data := data }

/-- A freshly attested node row: current serial/expiry set, pending pair
empty, no selectors yet. -/
def newNode (now id : Nat) (sid dataType serial : String) (expiresAt : Nat)
    (canReattest : Bool) : AttestedNode :=
  { model := ⟨id, now, now⟩
    SpiffeID := sid
    DataType := dataType
    SerialNumber := serial
    ExpiresAt := expiresAt
    NewSerialNumber := ""
    NewExpiresAt := none
    CanReattest := canReattest
    Selectors := [] }

/-- A freshly created join token row. -/
def newToken (now id : Nat) (tok : String) (expiry : Int) : JoinToken :=
  { model := ⟨id, now, now⟩, Token := tok, Expiry := expiry }

/-- An appended attested-node event row with the given sequence id. -/
def mkNodeEvent (now id : Nat) (sid : String) : AttestedNodeEvent :=
  { model := ⟨id, now, now⟩, SpiffeID := sid }

/-- An appended registered-entry event row with the given sequence id. -/
def mkEntryEvent (now id : Nat) (eid : String) : RegisteredEntryEvent :=
  { model := ⟨id, now, now⟩, EntryID := eid }

/-- Modelled from the spec: deleting a bundle "removes its association rows";
in this embedding an entry loses the deleted trust domain from its
`FederatesWith` list and is otherwise untouched. -/
def stripFederation (td : String) (e : RegisteredEntry) : RegisteredEntry :=
  { e with FederatesWith := e.FederatesWith.filter (fun d => d != td) }

/-- The mutating store operations, each carrying the commit instant `now`
where the store assigns timestamps.  Modelled from the spec: the operation
surface of §6 restricted to the entity kinds the verified claims range over
(bundles, attested nodes, registered entries, join tokens, and the two
event logs). -/
inductive Op where
  | createBundle (now : Nat) (td : String) (data : List Nat)
  | updateBundle (now : Nat) (td : String) (data : List Nat)
  | deleteBundle (td : String)
  | createNode (now : Nat) (sid dataType serial : String) (expiresAt : Nat) (canReattest : Bool)
  | updateNode (now : Nat) (sid : String) (m : NodeMask) (u : NodeParams)
  | deleteNode (sid : String)
  | prepareNodeRotation (now : Nat) (sid newSerial : String) (newExpiry : Nat)
  | promoteNodeRotation (now : Nat) (sid : String)
  | createEntry (now : Nat) (eid : String) (u : EntryParams)
  | updateEntry (now : Nat) (eid : String) (expectedRev : Int) (u : EntryParams)
  | deleteEntry (eid : String)
  | createJoinToken (now : Nat) (tok : String) (expiry : Int)
  | consumeJoinToken (tok : String)
  | pruneNodeEvents (bound : Nat)
  | pruneEntryEvents (bound : Nat)
deriving DecidableEq

/-- Modelled from the spec: run one store operation inside one transaction.
Create fails with `AlreadyExists` on a unique-key collision and (for nodes
and entries) appends a creation event in the same transaction; update for a
registered entry fails with `Conflict` when the caller's expected revision
differs from the stored one; entry creation/update validates every federation
target bundle and fails whole with `NotFound` when one is missing; delete
fails with `NotFound` when the row is absent; deleting a bundle removes only
its federation-association rows from referencing entries;
`PrepareNodeRotation` requires re-attestation to be allowed and a non-empty
replacement serial; `PromoteNodeRotation` with no pending pair is a no-op
success; `ConsumeJoinToken` deletes the token row, exactly once. -/
def runOp (op : Op) (s : StoreState) : Except StoreError StoreState :=
  match op with
  | .createBundle now td data =>
    match findBundle s td with
    | some _ => .error .AlreadyExists
    | none => .ok { s with
        bundles := s.bundles ++ [newBundle now s.nextEntityID td data]
        nextEntityID := s.nextEntityID + 1 }
  | .updateBundle now td data =>
    match findBundle s td with
    | none => .error .NotFound
    | some _ => .ok { s with
        bundles := updateBy (fun b => b.TrustDomain == td)
          (fun b => { b with model := { b.model with UpdatedAt := now }, Data := data }) s.bundles }
  | .deleteBundle td =>
    match findBundle s td with
    | none => .error .NotFound
    | some _ => .ok { s with
        bundles := s.bundles.filter (fun b => b.TrustDomain != td)
        entries := s.entries.map (stripFederation td) }
  | .createNode now sid dataType serial expiresAt canReattest =>
    match findNode s sid with
    | some _ => .error .AlreadyExists
    | none => .ok { s with
        nodes := s.nodes ++ [newNode now s.nextEntityID sid dataType serial expiresAt canReattest]
        nodeEvents := s.nodeEvents ++ [mkNodeEvent now s.nextNodeEventID sid]
        nextEntityID := s.nextEntityID + 1
        nextNodeEventID := s.nextNodeEventID + 1 }
  | .updateNode now sid m u =>
    match findNode s sid with
    | none => .error .NotFound
    | some _ => .ok { s with
        nodes := updateBy (fun n => n.SpiffeID == sid) (applyNodeMask now m u) s.nodes }
  | .deleteNode sid =>
    match findNode s sid with
    | none => .error .NotFound
    | some _ => .ok { s with
        nodes := s.nodes.filter (fun n => n.SpiffeID != sid)
        nodeEvents := s.nodeEvents ++ [mkNodeEvent 0 s.nextNodeEventID sid]
        nextNodeEventID := s.nextNodeEventID + 1 }
  | .prepareNodeRotation now sid newSerial newExpiry =>
    match findNode s sid with
    | none => .error .NotFound
    | some n =>
      if n.CanReattest = false then .error .Invalid
      else if newSerial = "" then .error .Invalid
      else .ok { s with
        nodes := updateBy (fun n => n.SpiffeID == sid)
          (prepareNode now newSerial newExpiry) s.nodes }
  | .promoteNodeRotation now sid =>
    match findNode s sid with
    | none => .error .NotFound
    | some n =>
      if n.NewSerialNumber = "" then .ok s
      else .ok { s with
        nodes := updateBy (fun n => n.SpiffeID == sid) (promoteNode now) s.nodes }
  | .createEntry now eid u =>
    match findEntry s eid with
    | some _ => .error .AlreadyExists
    | none =>
      if u.FederatesWith.all (fun td => (findBundle s td).isSome) then
        .ok { s with
          entries := s.entries ++ [newEntry now s.nextEntityID eid u]
          entryEvents := s.entryEvents ++ [mkEntryEvent now s.nextEntryEventID eid]
          nextEntityID := s.nextEntityID + 1
          nextEntryEventID := s.nextEntryEventID + 1 }
      else .error .NotFound
  | .updateEntry now eid expectedRev u =>
    match findEntry s eid with
    | none => .error .NotFound
    | some e =>
      if expectedRev ≠ e.RevisionNumber then .error .Conflict
      else if u.FederatesWith.all (fun td => (findBundle s td).isSome) then
        .ok { s with
          entries := updateBy (fun e => e.EntryID == eid) (applyEntryParams now u) s.entries }
      else .error .NotFound
  | .deleteEntry eid =>
    match findEntry s eid with
    | none => .error .NotFound
    | some _ => .ok { s with
        entries := s.entries.filter (fun e => e.EntryID != eid)
        entryEvents := s.entryEvents ++ [mkEntryEvent 0 s.nextEntryEventID eid]
        nextEntryEventID := s.nextEntryEventID + 1 }
  | .createJoinToken now tok expiry =>
    match findToken s tok with
    | some _ => .error .AlreadyExists
    | none => .ok { s with
        joinTokens := s.joinTokens ++ [newToken now s.nextEntityID tok expiry]
        nextEntityID := s.nextEntityID + 1 }
  | .consumeJoinToken tok =>
    match findToken s tok with
    | none => .error .NotFound
    | some _ => .ok { s with joinTokens := s.joinTokens.filter (fun t => t.Token != tok) }
  | .pruneNodeEvents bound =>
    .ok { s with nodeEvents := s.nodeEvents.filter (fun ev => bound < ev.model.ID) }
  | .pruneEntryEvents bound =>
    .ok { s with entryEvents := s.entryEvents.filter (fun ev => bound < ev.model.ID) }

/-- Apply an operation; a failing operation leaves the state unchanged (the
transaction rolls back). -/
def applyOp (op : Op) (s : StoreState) : StoreState :=
  match runOp op s with
  | .ok s1 => s1
  | .error _ => s

/-- The state reached by a sequence of operations from the empty store. -/
def execOps (ops : List Op) : StoreState :=
  ops.foldl (fun s op => applyOp op s) initState

/-- Modelled from the spec: `FetchEventsSince` for the registered-entry log
returns the committed events with sequence id strictly greater than the
caller's last seen id. -/
def fetchEntryEventsSince (s : StoreState) (lastSeenID : Nat) : List RegisteredEntryEvent :=
  s.entryEvents.filter (fun ev => lastSeenID < ev.model.ID)

/-- Modelled from the spec: `FetchEventsSince` for the attested-node log
returns the committed events with sequence id strictly greater than the
caller's last seen id. -/
def fetchNodeEventsSince (s : StoreState) (lastSeenID : Nat) : List AttestedNodeEvent :=
  s.nodeEvents.filter (fun ev => lastSeenID < ev.model.ID)

/-- The store invariant: unique keys per table, pending rotation fields set
or cleared as a pair, and per-log strictly increasing event sequence ids
bounded by the log's next id. -/
structure Inv (s : StoreState) : Prop where
  bundleKeys : (s.bundles.map Bundle.TrustDomain).Nodup
  nodeKeys : (s.nodes.map AttestedNode.SpiffeID).Nodup
  entryKeys : (s.entries.map RegisteredEntry.EntryID).Nodup
  tokenKeys : (s.joinTokens.map JoinToken.Token).Nodup
  pendingPaired : ∀ n ∈ s.nodes, (n.NewSerialNumber = "" ↔ n.NewExpiresAt = none)
  nodeEventsSorted : s.nodeEvents.Pairwise (fun a b => a.model.ID < b.model.ID)
  nodeEventsBound : ∀ ev ∈ s.nodeEvents, ev.model.ID < s.nextNodeEventID
  entryEventsSorted : s.entryEvents.Pairwise (fun a b => a.model.ID < b.model.ID)
  entryEventsBound : ∀ ev ∈ s.entryEvents, ev.model.ID < s.nextEntryEventID

/-- The stored revision number of the entry with the given id, if the entry
is present. -/
def entryRev (s : StoreState) (eid : String) : Option Int :=
  (findEntry s eid).map RegisteredEntry.RevisionNumber

/-- Run a sequence of operations from an arbitrary starting state. -/
def execFrom (s : StoreState) (ops : List Op) : StoreState :=
  ops.foldl (fun s op => applyOp op s) s

/-- The state after a successful node-rotation promotion for `sid`. -/
def promoteState (now : Nat) (sid : String) (s : StoreState) : StoreState :=
  { s with nodes := updateBy (fun x => x.SpiffeID == sid) (promoteNode now) s.nodes }

/-- The state after deleting the bundle with trust domain `td`: the bundle
row is gone and every entry merely loses `td` from its federation list. -/
def deleteBundleState (td : String) (s : StoreState) : StoreState :=
  { s with
    bundles := s.bundles.filter (fun b => b.TrustDomain != td)
    entries := s.entries.map (stripFederation td) }

/-- A concrete registered entry used to exercise the update theorems. -/
def c1Entry : RegisteredEntry :=
  { model := ⟨1, 0, 0⟩
    EntryID := "entry-1"
    SpiffeID := "spiffe://example.org/w"
    ParentID := "spiffe://example.org/agent"
    TTL := 60
    Selectors := []
    FederatesWith := []
    Admin := false
    Downstream := false
    Expiry := 0
    DNSList := []
    RevisionNumber := 5
    StoreSvid := false
    Hint := ""
    JWTSvidTTL := 30 }

/-- A concrete store state holding `c1Entry`. -/
def c1State : StoreState :=
  { initState with entries := [c1Entry], nextEntityID := 2 }

/-- Concrete update parameters with no federation targets. -/
def c1Params : EntryParams :=
  { SpiffeID := "spiffe://example.org/w2"
    ParentID := "spiffe://example.org/agent"
    TTL := 120
    Selectors := []
    FederatesWith := []
    Admin := false
    Downstream := false
    Expiry := 0
    DNSList := []
    StoreSvid := false
    Hint := "h"
    JWTSvidTTL := 45 }

/-- The concrete update operation on `c1State`. -/
def c1Op : Op := Op.updateEntry 9 "entry-1" 5 c1Params

/-- The state after the successful concrete update. -/
def c1StateAfter : StoreState :=
  { c1State with
    entries := updateBy (fun e => e.EntryID == "entry-1") (applyEntryParams 9 c1Params)
      c1State.entries }

/-- A concrete attested node with a pending rotation pair. -/
def c3Node : AttestedNode :=
  { model := ⟨1, 0, 0⟩
    SpiffeID := "spiffe://example.org/agent"
    DataType := "join_token"
    SerialNumber := "S1"
    ExpiresAt := 100
    NewSerialNumber := "S2"
    NewExpiresAt := some 200
    CanReattest := true
    Selectors := [] }

/-- A concrete store state holding `c3Node`. -/
def c3State : StoreState :=
  { initState with nodes := [c3Node], nextEntityID := 2 }

/-- A concrete operation sequence: attest a node, then prepare its rotation. -/
def c4Ops : List Op :=
  [Op.createNode 1 "spiffe://example.org/a" "x509pop" "S1" 100 true,
   Op.prepareNodeRotation 2 "spiffe://example.org/a" "S2" 200]

/-- The node stored after running `c4Ops`. -/
def c4Node : AttestedNode :=
  { model := ⟨1, 1, 2⟩
    SpiffeID := "spiffe://example.org/a"
    DataType := "x509pop"
    SerialNumber := "S1"
    ExpiresAt := 100
    NewSerialNumber := "S2"
    NewExpiresAt := some 200
    CanReattest := true
    Selectors := [] }

/-- A concrete operation sequence: create a bundle and a join token. -/
def c5Ops : List Op :=
  [Op.createBundle 1 "example.org" [7], Op.createJoinToken 2 "tok" 50]

/-- The bundle stored after running `c5Ops`. -/
def c5Bundle : Bundle := { model := ⟨1, 1, 1⟩, TrustDomain := "example.org", Data := [7] }

/-- A concrete join token and a state holding it. -/
def c6Token : JoinToken := { model := ⟨1, 0, 0⟩, Token := "tok-1", Expiry := 99 }

/-- A concrete store state holding `c6Token`. -/
def c6State : StoreState :=
  { initState with joinTokens := [c6Token], nextEntityID := 2 }

/-- A concrete bundle referenced by an entry. -/
def c7Bundle : Bundle := { model := ⟨1, 0, 0⟩, TrustDomain := "example.org", Data := [1] }

/-- A concrete entry federating with `example.org` and `other.org`. -/
def c7Entry : RegisteredEntry :=
  { model := ⟨2, 0, 0⟩
    EntryID := "entry-7"
    SpiffeID := "spiffe://example.org/w"
    ParentID := "spiffe://example.org/agent"
    TTL := 60
    Selectors := []
    FederatesWith := ["example.org", "other.org"]
    Admin := false
    Downstream := false
    Expiry := 0
    DNSList := []
    RevisionNumber := 0
    StoreSvid := false
    Hint := ""
    JWTSvidTTL := 30 }

/-- A concrete store state holding `c7Bundle` and `c7Entry`. -/
def c7State : StoreState :=
  { initState with bundles := [c7Bundle], entries := [c7Entry], nextEntityID := 3 }

/-- A concrete operation sequence producing events in both logs. -/
def c8Ops : List Op :=
  [Op.createNode 1 "spiffe://example.org/a" "x509pop" "S1" 100 true,
   Op.createEntry 2 "entry-8" c1Params,
   Op.deleteEntry "entry-8"]

/-- The first registered-entry event appended by `c8Ops`. -/
def c8Event : RegisteredEntryEvent := { model := ⟨1, 2, 2⟩, EntryID := "entry-8" }

theorem updateBy_map_eq (p : α → Bool) (f : α → α) (g : α → β)
    (hg : ∀ a, p a = true → g (f a) = g a) :
    ∀ l : List α, (updateBy p f l).map g = l.map g := by
  intro l
  induction l with
  | nil => rfl
  | cons x xs ih =>
    by_cases hx : p x = true
    · simp [updateBy, hx, hg x hx]
    · simp [updateBy, hx, ih]

theorem mem_updateBy {p : α → Bool} {f : α → α} :
    ∀ {l : List α} {x : α}, x ∈ updateBy p f l →
      x ∈ l ∨ ∃ a, a ∈ l ∧ p a = true ∧ x = f a := by
  intro l
  induction l with
  | nil => intro x hx; exact absurd hx (by simp [updateBy])
  | cons y ys ih =>
    intro x hx
    by_cases hy : p y = true
    · simp only [updateBy, hy, if_pos] at hx
      rcases List.mem_cons.mp hx with h1 | h1
      · exact Or.inr ⟨y, List.mem_cons_self y ys, hy, h1⟩
      · exact Or.inl (List.mem_cons_of_mem y h1)
    · simp only [updateBy, hy, if_neg, Bool.not_eq_true] at hx
      rcases List.mem_cons.mp hx with h1 | h1
      · exact Or.inl (h1 ▸ List.mem_cons_self y ys)
      · rcases ih h1 with h2 | ⟨a, ha, hpa, hfa⟩
        · exact Or.inl (List.mem_cons_of_mem y h2)
        · exact Or.inr ⟨a, List.mem_cons_of_mem y ha, hpa, hfa⟩

theorem find?_updateBy_self (p : α → Bool) (f : α → α)
    (hp : ∀ a, p a = true → p (f a) = true) :
    ∀ l : List α, (updateBy p f l).find? p = (l.find? p).map f := by
  intro l
  induction l with
  | nil => rfl
  | cons x xs ih =>
    by_cases hx : p x = true
    · simp [updateBy, hx, List.find?_cons_of_pos, hp x hx]
    · have hx' : p x = false := Bool.not_eq_true _ ▸ eq_false_of_ne_true hx
      simp [updateBy, hx', List.find?_cons_of_neg, ih]

theorem find?_filter_none (p q : α → Bool) (h : ∀ a, q a = true → p a = false) :
    ∀ l : List α, (l.filter q).find? p = none := by
  intro l
  induction l with
  | nil => rfl
  | cons x xs ih =>
    by_cases hx : q x = true
    · simp [List.filter_cons, hx, List.find?_cons_of_neg, h x hx, ih]
    · simp [List.filter_cons, hx, ih]

theorem not_mem_map_of_find?_none {l : List α} {g : α → String} {k : String}
    (h : l.find? (fun a => g a == k) = none) : k ∉ l.map g := by
  intro hk
  rcases List.mem_map.mp hk with ⟨a, ha, hga⟩
  have := List.find?_eq_none.mp h a ha
  simp [hga] at this

theorem nodup_map_append_single {l : List α} {g : α → String} {x : α}
    (h : (l.map g).Nodup) (hx : g x ∉ l.map g) : ((l ++ [x]).map g).Nodup := by
  rw [List.map_append]
  simp only [List.map_cons, List.map_nil]
  exact List.Nodup.append h (List.nodup_singleton _)
    (by simpa [List.disjoint_singleton] using hx)

theorem nodup_map_filter {l : List α} {g : α → String} {q : α → Bool}
    (h : (l.map g).Nodup) : ((l.filter q).map g).Nodup :=
  List.Nodup.sublist (List.Sublist.map g (List.filter_sublist l)) h

theorem pairwise_lt_append_single {l : List α} {g : α → Nat} {x : α} {bound : Nat}
    (h : l.Pairwise (fun a b => g a < g b)) (hb : ∀ y ∈ l, g y < bound)
    (hx : bound ≤ g x) : (l ++ [x]).Pairwise (fun a b => g a < g b) := by
  rw [List.pairwise_append]
  exact ⟨h, List.pairwise_singleton _ _,
    fun a ha b hb' => by
      rcases List.mem_singleton.mp hb' with rfl
      exact lt_of_lt_of_le (hb a ha) hx⟩

theorem pairwise_filter_of_pairwise {l : List α} {r : α → α → Prop} {q : α → Bool}
    (h : l.Pairwise r) : (l.filter q).Pairwise r :=
  List.Pairwise.sublist (List.filter_sublist l) h

theorem find?_updateBy_frame (p q : α → Bool) (f : α → α)
    (hq : ∀ a, q (f a) = q a) (hdisj : ∀ a, q a = true → p a = false) :
    ∀ l : List α, (updateBy p f l).find? q = l.find? q := by
  intro l
  induction l with
  | nil => rfl
  | cons x xs ih =>
    by_cases hx : p x = true
    · have hqx : q x = false := by
        cases hq' : q x with
        | false => rfl
        | true => rw [hdisj x hq'] at hx; exact absurd hx (by simp)
      have hqfx : q (f x) = false := (hq x).trans hqx
      simp [updateBy, hx, List.find?_cons_of_neg, hqx, hqfx]
    · have hx' : p x = false := Bool.not_eq_true _ ▸ eq_false_of_ne_true hx
      cases hq' : q x with
      | true => simp [updateBy, hx', List.find?_cons_of_pos, hq']
      | false => simp [updateBy, hx', List.find?_cons_of_neg, hq', ih]

theorem find?_filter_frame (q w : α → Bool) (h : ∀ a, q a = true → w a = true) :
    ∀ l : List α, (l.filter w).find? q = l.find? q := by
  intro l
  induction l with
  | nil => rfl
  | cons x xs ih =>
    by_cases hw : w x = true
    · cases hq' : q x with
      | true => simp [List.filter_cons, hw, List.find?_cons_of_pos, hq']
      | false => simp [List.filter_cons, hw, List.find?_cons_of_neg, hq', ih]
    · have hq' : q x = false := by
        cases hq'' : q x with
        | false => rfl
        | true => exact absurd (h x hq'') hw
      simp [List.filter_cons, hw, List.find?_cons_of_neg, hq', ih]

theorem find?_append_of_some {l l' : List α} {q : α → Bool} {a : α}
    (h : l.find? q = some a) : (l ++ l').find? q = some a := by
  induction l with
  | nil => exact absurd h (by simp)
  | cons x xs ih =>
    cases hq : q x with
    | true =>
      rw [List.find?_cons_of_pos _ hq] at h
      rw [List.cons_append, List.find?_cons_of_pos _ hq]
      exact h
    | false =>
      have hneg : ¬ q x = true := by simp [hq]
      rw [List.find?_cons_of_neg _ hneg] at h
      rw [List.cons_append, List.find?_cons_of_neg _ hneg]
      exact ih h

theorem find?_map_key (f : α → α) (q : α → Bool)
    (hq : ∀ a, q (f a) = q a) :
    ∀ l : List α, (l.map f).find? q = (l.find? q).map f := by
  intro l
  induction l with
  | nil => rfl
  | cons x xs ih =>
    cases hq' : q x with
    | true =>
      have : q (f x) = true := (hq x).trans hq'
      simp [List.find?_cons_of_pos, this, hq']
    | false =>
      have : q (f x) = false := (hq x).trans hq'
      simp [List.find?_cons_of_neg, this, hq', ih]

theorem inv_initState : Inv initState := by
  constructor <;> simp [initState]

theorem invStep_createBundle {s : StoreState} {now : Nat} {td : String} {data : List Nat}
    (h : Inv s) : Inv (applyOp (Op.createBundle now td data) s) := by
  simp only [applyOp, runOp]
  cases hf : findBundle s td with
  | some b => exact h
  | none =>
    refine ⟨?_, h.nodeKeys, h.entryKeys, h.tokenKeys, h.pendingPaired,
      h.nodeEventsSorted, h.nodeEventsBound, h.entryEventsSorted, h.entryEventsBound⟩
    exact nodup_map_append_single h.bundleKeys
      (by simpa [newBundle] using not_mem_map_of_find?_none (by simpa [findBundle] using hf))

theorem invStep_updateBundle {s : StoreState} {now : Nat} {td : String} {data : List Nat}
    (h : Inv s) : Inv (applyOp (Op.updateBundle now td data) s) := by
  simp only [applyOp, runOp]
  cases hf : findBundle s td with
  | none => exact h
  | some b =>
    have h1 : (updateBy (fun b => b.TrustDomain == td)
        (fun b => { b with model := { b.model with UpdatedAt := now }, Data := data })
        s.bundles).map Bundle.TrustDomain = s.bundles.map Bundle.TrustDomain :=
      updateBy_map_eq (fun b => b.TrustDomain == td)
        (fun b => { b with model := { b.model with UpdatedAt := now }, Data := data })
        Bundle.TrustDomain (fun a _ => rfl) s.bundles
    have hb : (List.map Bundle.TrustDomain (updateBy (fun b => b.TrustDomain == td)
        (fun b => { b with model := { b.model with UpdatedAt := now }, Data := data })
        s.bundles)).Nodup := by
      rw [h1]
      exact h.bundleKeys
    exact ⟨hb, h.nodeKeys, h.entryKeys, h.tokenKeys, h.pendingPaired,
      h.nodeEventsSorted, h.nodeEventsBound, h.entryEventsSorted, h.entryEventsBound⟩

theorem invStep_deleteBundle {s : StoreState} {td : String}
    (h : Inv s) : Inv (applyOp (Op.deleteBundle td) s) := by
  simp only [applyOp, runOp]
  cases hf : findBundle s td with
  | none => exact h
  | some b =>
    have he : (List.map RegisteredEntry.EntryID (s.entries.map (stripFederation td))).Nodup := by
      rw [List.map_map]
      exact h.entryKeys
    exact ⟨nodup_map_filter h.bundleKeys, h.nodeKeys, he, h.tokenKeys, h.pendingPaired,
      h.nodeEventsSorted, h.nodeEventsBound, h.entryEventsSorted, h.entryEventsBound⟩

theorem invStep_createNode {s : StoreState} {now : Nat} {sid dataType serial : String}
    {expiresAt : Nat} {canReattest : Bool}
    (h : Inv s) : Inv (applyOp (Op.createNode now sid dataType serial expiresAt canReattest) s) := by
  simp only [applyOp, runOp]
  cases hf : findNode s sid with
  | some n => exact h
  | none =>
    have hn : ((s.nodes ++ [newNode now s.nextEntityID sid dataType serial expiresAt canReattest]).map
        AttestedNode.SpiffeID).Nodup :=
      nodup_map_append_single h.nodeKeys
        (by simpa [newNode] using not_mem_map_of_find?_none (by simpa [findNode] using hf))
    have hp : ∀ n ∈ s.nodes ++ [newNode now s.nextEntityID sid dataType serial expiresAt canReattest],
        (n.NewSerialNumber = "" ↔ n.NewExpiresAt = none) := by
      intro n hmem
      rcases List.mem_append.mp hmem with h1 | h1
      · exact h.pendingPaired n h1
      · rcases List.mem_singleton.mp h1 with rfl
        simp [newNode]
    have hs : (s.nodeEvents ++ [mkNodeEvent now s.nextNodeEventID sid]).Pairwise
        (fun a b => a.model.ID < b.model.ID) :=
      pairwise_lt_append_single h.nodeEventsSorted h.nodeEventsBound (Nat.le_refl _)
    have hb : ∀ ev ∈ s.nodeEvents ++ [mkNodeEvent now s.nextNodeEventID sid],
        ev.model.ID < s.nextNodeEventID + 1 := by
      intro ev hmem
      rcases List.mem_append.mp hmem with h1 | h1
      · exact Nat.lt_succ_of_lt (h.nodeEventsBound ev h1)
      · rcases List.mem_singleton.mp h1 with rfl
        exact Nat.lt_succ_self _
    exact ⟨h.bundleKeys, hn, h.entryKeys, h.tokenKeys, hp, hs, hb,
      h.entryEventsSorted, h.entryEventsBound⟩

theorem invStep_updateNode {s : StoreState} {now : Nat} {sid : String}
    {m : NodeMask} {u : NodeParams}
    (h : Inv s) : Inv (applyOp (Op.updateNode now sid m u) s) := by
  simp only [applyOp, runOp]
  cases hf : findNode s sid with
  | none => exact h
  | some n =>
    have h1 : (updateBy (fun n => n.SpiffeID == sid) (applyNodeMask now m u) s.nodes).map
        AttestedNode.SpiffeID = s.nodes.map AttestedNode.SpiffeID :=
      updateBy_map_eq (fun n => n.SpiffeID == sid) (applyNodeMask now m u)
        AttestedNode.SpiffeID (fun a _ => rfl) s.nodes
    have hn : ((updateBy (fun n => n.SpiffeID == sid) (applyNodeMask now m u) s.nodes).map
        AttestedNode.SpiffeID).Nodup := by
      rw [h1]; exact h.nodeKeys
    have hp : ∀ x ∈ updateBy (fun n => n.SpiffeID == sid) (applyNodeMask now m u) s.nodes,
        (x.NewSerialNumber = "" ↔ x.NewExpiresAt = none) := by
      intro x hmem
      rcases mem_updateBy hmem with h1 | ⟨a, ha, _, rfl⟩
      · exact h.pendingPaired x h1
      · simpa [applyNodeMask] using h.pendingPaired a ha
    exact ⟨h.bundleKeys, hn, h.entryKeys, h.tokenKeys, hp,
      h.nodeEventsSorted, h.nodeEventsBound, h.entryEventsSorted, h.entryEventsBound⟩

theorem invStep_deleteNode {s : StoreState} {sid : String}
    (h : Inv s) : Inv (applyOp (Op.deleteNode sid) s) := by
  simp only [applyOp, runOp]
  cases hf : findNode s sid with
  | none => exact h
  | some n =>
    have hp : ∀ x ∈ s.nodes.filter (fun n => n.SpiffeID != sid),
        (x.NewSerialNumber = "" ↔ x.NewExpiresAt = none) := by
      intro x hmem
      exact h.pendingPaired x (List.mem_of_mem_filter hmem)
    have hs : (s.nodeEvents ++ [mkNodeEvent 0 s.nextNodeEventID sid]).Pairwise
        (fun a b => a.model.ID < b.model.ID) :=
      pairwise_lt_append_single h.nodeEventsSorted h.nodeEventsBound (Nat.le_refl _)
    have hb : ∀ ev ∈ s.nodeEvents ++ [mkNodeEvent 0 s.nextNodeEventID sid],
        ev.model.ID < s.nextNodeEventID + 1 := by
      intro ev hmem
      rcases List.mem_append.mp hmem with h1 | h1
      · exact Nat.lt_succ_of_lt (h.nodeEventsBound ev h1)
      · rcases List.mem_singleton.mp h1 with rfl
        exact Nat.lt_succ_self _
    exact ⟨h.bundleKeys, nodup_map_filter h.nodeKeys, h.entryKeys, h.tokenKeys, hp, hs, hb,
      h.entryEventsSorted, h.entryEventsBound⟩

theorem invStep_prepareNodeRotation {s : StoreState} {now : Nat} {sid newSerial : String}
    {newExpiry : Nat}
    (h : Inv s) : Inv (applyOp (Op.prepareNodeRotation now sid newSerial newExpiry) s) := by
  simp only [applyOp, runOp]
  cases hf : findNode s sid with
  | none => exact h
  | some n =>
    by_cases hc : n.CanReattest = false
    · simp only [if_pos hc]
      exact h
    · simp only [if_neg hc]
      by_cases hns : newSerial = ""
      · simp only [if_pos hns]
        exact h
      · simp only [if_neg hns]
        have h1 : (updateBy (fun n => n.SpiffeID == sid) (prepareNode now newSerial newExpiry)
            s.nodes).map AttestedNode.SpiffeID = s.nodes.map AttestedNode.SpiffeID :=
          updateBy_map_eq (fun n => n.SpiffeID == sid) (prepareNode now newSerial newExpiry)
            AttestedNode.SpiffeID (fun a _ => rfl) s.nodes
        have hn : ((updateBy (fun n => n.SpiffeID == sid) (prepareNode now newSerial newExpiry)
            s.nodes).map AttestedNode.SpiffeID).Nodup := by
          rw [h1]; exact h.nodeKeys
        have hp : ∀ x ∈ updateBy (fun n => n.SpiffeID == sid)
            (prepareNode now newSerial newExpiry) s.nodes,
            (x.NewSerialNumber = "" ↔ x.NewExpiresAt = none) := by
          intro x hmem
          rcases mem_updateBy hmem with h1 | ⟨a, ha, _, rfl⟩
          · exact h.pendingPaired x h1
          · simp [prepareNode, hns]
        exact ⟨h.bundleKeys, hn, h.entryKeys, h.tokenKeys, hp,
          h.nodeEventsSorted, h.nodeEventsBound, h.entryEventsSorted, h.entryEventsBound⟩

theorem invStep_promoteNodeRotation {s : StoreState} {now : Nat} {sid : String}
    (h : Inv s) : Inv (applyOp (Op.promoteNodeRotation now sid) s) := by
  simp only [applyOp, runOp]
  cases hf : findNode s sid with
  | none => exact h
  | some n =>
    by_cases hns : n.NewSerialNumber = ""
    · simp only [if_pos hns]
      exact h
    · simp only [if_neg hns]
      have h1 : (updateBy (fun n => n.SpiffeID == sid) (promoteNode now) s.nodes).map
          AttestedNode.SpiffeID = s.nodes.map AttestedNode.SpiffeID :=
        updateBy_map_eq (fun n => n.SpiffeID == sid) (promoteNode now)
          AttestedNode.SpiffeID (fun a _ => rfl) s.nodes
      have hn : ((updateBy (fun n => n.SpiffeID == sid) (promoteNode now) s.nodes).map
          AttestedNode.SpiffeID).Nodup := by
        rw [h1]; exact h.nodeKeys
      have hp : ∀ x ∈ updateBy (fun n => n.SpiffeID == sid) (promoteNode now) s.nodes,
          (x.NewSerialNumber = "" ↔ x.NewExpiresAt = none) := by
        intro x hmem
        rcases mem_updateBy hmem with h1 | ⟨a, ha, _, rfl⟩
        · exact h.pendingPaired x h1
        · simp [promoteNode]
      exact ⟨h.bundleKeys, hn, h.entryKeys, h.tokenKeys, hp,
        h.nodeEventsSorted, h.nodeEventsBound, h.entryEventsSorted, h.entryEventsBound⟩

theorem invStep_createEntry {s : StoreState} {now : Nat} {eid : String} {u : EntryParams}
    (h : Inv s) : Inv (applyOp (Op.createEntry now eid u) s) := by
  simp only [applyOp, runOp]
  cases hf : findEntry s eid with
  | some e => exact h
  | none =>
    by_cases hall : (u.FederatesWith.all (fun td => (findBundle s td).isSome)) = true
    · simp only [if_pos hall]
      have he : ((s.entries ++ [newEntry now s.nextEntityID eid u]).map
          RegisteredEntry.EntryID).Nodup :=
        nodup_map_append_single h.entryKeys
          (by simpa [newEntry] using not_mem_map_of_find?_none (by simpa [findEntry] using hf))
      have hs : (s.entryEvents ++ [mkEntryEvent now s.nextEntryEventID eid]).Pairwise
          (fun a b => a.model.ID < b.model.ID) :=
        pairwise_lt_append_single h.entryEventsSorted h.entryEventsBound (Nat.le_refl _)
      have hb : ∀ ev ∈ s.entryEvents ++ [mkEntryEvent now s.nextEntryEventID eid],
          ev.model.ID < s.nextEntryEventID + 1 := by
        intro ev hmem
        rcases List.mem_append.mp hmem with h1 | h1
        · exact Nat.lt_succ_of_lt (h.entryEventsBound ev h1)
        · rcases List.mem_singleton.mp h1 with rfl
          exact Nat.lt_succ_self _
      exact ⟨h.bundleKeys, h.nodeKeys, he, h.tokenKeys, h.pendingPaired,
        h.nodeEventsSorted, h.nodeEventsBound, hs, hb⟩
    · simp only [if_neg hall]
      exact h

theorem invStep_updateEntry {s : StoreState} {now : Nat} {eid : String} {expectedRev : Int}
    {u : EntryParams}
    (h : Inv s) : Inv (applyOp (Op.updateEntry now eid expectedRev u) s) := by
  simp only [applyOp, runOp]
  cases hf : findEntry s eid with
  | none => exact h
  | some e =>
    by_cases hrev : expectedRev ≠ e.RevisionNumber
    · simp only [if_pos hrev]
      exact h
    · simp only [if_neg hrev]
      by_cases hall : (u.FederatesWith.all (fun td => (findBundle s td).isSome)) = true
      · simp only [if_pos hall]
        have h1 : (updateBy (fun e => e.EntryID == eid) (applyEntryParams now u) s.entries).map
            RegisteredEntry.EntryID = s.entries.map RegisteredEntry.EntryID :=
          updateBy_map_eq (fun e => e.EntryID == eid) (applyEntryParams now u)
            RegisteredEntry.EntryID (fun a _ => rfl) s.entries
        have he : ((updateBy (fun e => e.EntryID == eid) (applyEntryParams now u) s.entries).map
            RegisteredEntry.EntryID).Nodup := by
          rw [h1]; exact h.entryKeys
        exact ⟨h.bundleKeys, h.nodeKeys, he, h.tokenKeys, h.pendingPaired,
          h.nodeEventsSorted, h.nodeEventsBound, h.entryEventsSorted, h.entryEventsBound⟩
      · simp only [if_neg hall]
        exact h

theorem invStep_deleteEntry {s : StoreState} {eid : String}
    (h : Inv s) : Inv (applyOp (Op.deleteEntry eid) s) := by
  simp only [applyOp, runOp]
  cases hf : findEntry s eid with
  | none => exact h
  | some e =>
    have hs : (s.entryEvents ++ [mkEntryEvent 0 s.nextEntryEventID eid]).Pairwise
        (fun a b => a.model.ID < b.model.ID) :=
      pairwise_lt_append_single h.entryEventsSorted h.entryEventsBound (Nat.le_refl _)
    have hb : ∀ ev ∈ s.entryEvents ++ [mkEntryEvent 0 s.nextEntryEventID eid],
        ev.model.ID < s.nextEntryEventID + 1 := by
      intro ev hmem
      rcases List.mem_append.mp hmem with h1 | h1
      · exact Nat.lt_succ_of_lt (h.entryEventsBound ev h1)
      · rcases List.mem_singleton.mp h1 with rfl
        exact Nat.lt_succ_self _
    exact ⟨h.bundleKeys, h.nodeKeys, nodup_map_filter h.entryKeys, h.tokenKeys, h.pendingPaired,
      h.nodeEventsSorted, h.nodeEventsBound, hs, hb⟩

theorem invStep_createJoinToken {s : StoreState} {now : Nat} {tok : String} {expiry : Int}
    (h : Inv s) : Inv (applyOp (Op.createJoinToken now tok expiry) s) := by
  simp only [applyOp, runOp]
  cases hf : findToken s tok with
  | some t => exact h
  | none =>
    have ht : ((s.joinTokens ++ [newToken now s.nextEntityID tok expiry]).map
        JoinToken.Token).Nodup :=
      nodup_map_append_single h.tokenKeys
        (by simpa [newToken] using not_mem_map_of_find?_none (by simpa [findToken] using hf))
    exact ⟨h.bundleKeys, h.nodeKeys, h.entryKeys, ht, h.pendingPaired,
      h.nodeEventsSorted, h.nodeEventsBound, h.entryEventsSorted, h.entryEventsBound⟩

theorem invStep_consumeJoinToken {s : StoreState} {tok : String}
    (h : Inv s) : Inv (applyOp (Op.consumeJoinToken tok) s) := by
  simp only [applyOp, runOp]
  cases hf : findToken s tok with
  | none => exact h
  | some t =>
    exact ⟨h.bundleKeys, h.nodeKeys, h.entryKeys, nodup_map_filter h.tokenKeys, h.pendingPaired,
      h.nodeEventsSorted, h.nodeEventsBound, h.entryEventsSorted, h.entryEventsBound⟩

theorem invStep_pruneNodeEvents {s : StoreState} {bound : Nat}
    (h : Inv s) : Inv (applyOp (Op.pruneNodeEvents bound) s) := by
  simp only [applyOp, runOp]
  have hb : ∀ ev ∈ s.nodeEvents.filter (fun ev => bound < ev.model.ID),
      ev.model.ID < s.nextNodeEventID := by
    intro ev hmem
    exact h.nodeEventsBound ev (List.mem_of_mem_filter hmem)
  exact ⟨h.bundleKeys, h.nodeKeys, h.entryKeys, h.tokenKeys, h.pendingPaired,
    pairwise_filter_of_pairwise h.nodeEventsSorted, hb,
    h.entryEventsSorted, h.entryEventsBound⟩

theorem invStep_pruneEntryEvents {s : StoreState} {bound : Nat}
    (h : Inv s) : Inv (applyOp (Op.pruneEntryEvents bound) s) := by
  simp only [applyOp, runOp]
  have hb : ∀ ev ∈ s.entryEvents.filter (fun ev => bound < ev.model.ID),
      ev.model.ID < s.nextEntryEventID := by
    intro ev hmem
    exact h.entryEventsBound ev (List.mem_of_mem_filter hmem)
  exact ⟨h.bundleKeys, h.nodeKeys, h.entryKeys, h.tokenKeys, h.pendingPaired,
    h.nodeEventsSorted, h.nodeEventsBound,
    pairwise_filter_of_pairwise h.entryEventsSorted, hb⟩

/-- Every operation preserves the store invariant. -/
theorem inv_applyOp (op : Op) {s : StoreState} (h : Inv s) : Inv (applyOp op s) := by
  cases op with
  | createBundle now td data => exact invStep_createBundle h
  | updateBundle now td data => exact invStep_updateBundle h
  | deleteBundle td => exact invStep_deleteBundle h
  | createNode now sid dataType serial expiresAt canReattest => exact invStep_createNode h
  | updateNode now sid m u => exact invStep_updateNode h
  | deleteNode sid => exact invStep_deleteNode h
  | prepareNodeRotation now sid newSerial newExpiry => exact invStep_prepareNodeRotation h
  | promoteNodeRotation now sid => exact invStep_promoteNodeRotation h
  | createEntry now eid u => exact invStep_createEntry h
  | updateEntry now eid expectedRev u => exact invStep_updateEntry h
  | deleteEntry eid => exact invStep_deleteEntry h
  | createJoinToken now tok expiry => exact invStep_createJoinToken h
  | consumeJoinToken tok => exact invStep_consumeJoinToken h
  | pruneNodeEvents bound => exact invStep_pruneNodeEvents h
  | pruneEntryEvents bound => exact invStep_pruneEntryEvents h

theorem inv_foldl (ops : List Op) :
    ∀ s : StoreState, Inv s → Inv (ops.foldl (fun s op => applyOp op s) s) := by
  induction ops with
  | nil => intro s h; exact h
  | cons op rest ih => intro s h; exact ih _ (inv_applyOp op h)

/-- Every state reachable from the empty store satisfies the invariant. -/
theorem inv_execOps (ops : List Op) : Inv (execOps ops) :=
  inv_foldl ops initState inv_initState

theorem entryRev_mono_applyOp (op : Op) {s : StoreState} {eid : String} {r r' : Int}
    (h1 : entryRev s eid = some r) (h2 : entryRev (applyOp op s) eid = some r') :
    r ≤ r' := by
  cases op with
  | createBundle now td data =>
    cases hf : findBundle s td
    all_goals simp only [applyOp, runOp, hf] at h2
    all_goals exact le_of_eq (Option.some.inj (h1.symm.trans h2))
  | updateBundle now td data =>
    cases hf : findBundle s td
    all_goals simp only [applyOp, runOp, hf] at h2
    all_goals exact le_of_eq (Option.some.inj (h1.symm.trans h2))
  | deleteBundle td =>
    cases hf : findBundle s td with
    | none =>
      simp only [applyOp, runOp, hf] at h2
      exact le_of_eq (Option.some.inj (h1.symm.trans h2))
    | some b =>
      simp only [applyOp, runOp, hf] at h2
      simp only [entryRev, findEntry] at h1 h2
      rw [find?_map_key (stripFederation td) (fun e : RegisteredEntry => e.EntryID == eid)
        (fun a => rfl)] at h2
      cases hfind : s.entries.find? (fun e => e.EntryID == eid) with
      | none => rw [hfind] at h1; exact absurd h1 (by simp)
      | some e =>
        rw [hfind] at h1 h2
        simp only [Option.map_some'] at h1 h2
        exact le_of_eq ((Option.some.inj h1).symm.trans (Option.some.inj h2))
  | createNode now sid dataType serial expiresAt canReattest =>
    cases hf : findNode s sid
    all_goals simp only [applyOp, runOp, hf] at h2
    all_goals exact le_of_eq (Option.some.inj (h1.symm.trans h2))
  | updateNode now sid m u =>
    cases hf : findNode s sid
    all_goals simp only [applyOp, runOp, hf] at h2
    all_goals exact le_of_eq (Option.some.inj (h1.symm.trans h2))
  | deleteNode sid =>
    cases hf : findNode s sid
    all_goals simp only [applyOp, runOp, hf] at h2
    all_goals exact le_of_eq (Option.some.inj (h1.symm.trans h2))
  | prepareNodeRotation now sid newSerial newExpiry =>
    cases hf : findNode s sid with
    | none =>
      simp only [applyOp, runOp, hf] at h2
      exact le_of_eq (Option.some.inj (h1.symm.trans h2))
    | some n =>
      by_cases hc : n.CanReattest = false
      · simp only [applyOp, runOp, hf, if_pos hc] at h2
        exact le_of_eq (Option.some.inj (h1.symm.trans h2))
      · by_cases hns : newSerial = ""
        · simp only [applyOp, runOp, hf, if_neg hc, if_pos hns] at h2
          exact le_of_eq (Option.some.inj (h1.symm.trans h2))
        · simp only [applyOp, runOp, hf, if_neg hc, if_neg hns] at h2
          exact le_of_eq (Option.some.inj (h1.symm.trans h2))
  | promoteNodeRotation now sid =>
    cases hf : findNode s sid with
    | none =>
      simp only [applyOp, runOp, hf] at h2
      exact le_of_eq (Option.some.inj (h1.symm.trans h2))
    | some n =>
      by_cases hns : n.NewSerialNumber = ""
      · simp only [applyOp, runOp, hf, if_pos hns] at h2
        exact le_of_eq (Option.some.inj (h1.symm.trans h2))
      · simp only [applyOp, runOp, hf, if_neg hns] at h2
        exact le_of_eq (Option.some.inj (h1.symm.trans h2))
  | createEntry now eid0 u =>
    cases hf : findEntry s eid0 with
    | some e =>
      simp only [applyOp, runOp, hf] at h2
      exact le_of_eq (Option.some.inj (h1.symm.trans h2))
    | none =>
      by_cases hall : (u.FederatesWith.all (fun td => (findBundle s td).isSome)) = true
      · simp only [applyOp, runOp, hf, if_pos hall] at h2
        simp only [entryRev, findEntry] at h1 h2
        cases hfind : s.entries.find? (fun e => e.EntryID == eid) with
        | none => rw [hfind] at h1; exact absurd h1 (by simp)
        | some e =>
          rw [find?_append_of_some hfind] at h2
          rw [hfind] at h1
          simp only [Option.map_some'] at h1 h2
          exact le_of_eq ((Option.some.inj h1).symm.trans (Option.some.inj h2))
      · simp only [applyOp, runOp, hf, if_neg hall] at h2
        exact le_of_eq (Option.some.inj (h1.symm.trans h2))
  | updateEntry now eid0 expectedRev u =>
    cases hf : findEntry s eid0 with
    | none =>
      simp only [applyOp, runOp, hf] at h2
      exact le_of_eq (Option.some.inj (h1.symm.trans h2))
    | some e =>
      by_cases hrev : expectedRev ≠ e.RevisionNumber
      · simp only [applyOp, runOp, hf, if_pos hrev] at h2
        exact le_of_eq (Option.some.inj (h1.symm.trans h2))
      · by_cases hall : (u.FederatesWith.all (fun td => (findBundle s td).isSome)) = true
        · simp only [applyOp, runOp, hf, if_neg hrev, if_pos hall] at h2
          simp only [entryRev, findEntry] at h1 h2
          by_cases heid : eid = eid0
          · subst heid
            rw [find?_updateBy_self (fun e : RegisteredEntry => e.EntryID == eid)
              (applyEntryParams now u) (fun a ha => ha)] at h2
            simp only [findEntry] at hf
            rw [hf] at h1 h2
            simp only [Option.map_some'] at h1 h2
            have hr : e.RevisionNumber = r := Option.some.inj h1
            have hr' : (applyEntryParams now u e).RevisionNumber = r' := Option.some.inj h2
            have hr'' : e.RevisionNumber + 1 = r' := hr'
            omega
          · have hdisj : ∀ a : RegisteredEntry,
                (a.EntryID == eid) = true → (a.EntryID == eid0) = false := by
              intro a ha
              have hae : a.EntryID = eid := by simpa using ha
              simp [hae, heid]
            rw [find?_updateBy_frame (fun e : RegisteredEntry => e.EntryID == eid0)
              (fun e : RegisteredEntry => e.EntryID == eid)
              (applyEntryParams now u) (fun a => rfl) hdisj] at h2
            exact le_of_eq (Option.some.inj (h1.symm.trans h2))
        · simp only [applyOp, runOp, hf, if_neg hrev, if_neg hall] at h2
          exact le_of_eq (Option.some.inj (h1.symm.trans h2))
  | deleteEntry eid0 =>
    cases hf : findEntry s eid0 with
    | none =>
      simp only [applyOp, runOp, hf] at h2
      exact le_of_eq (Option.some.inj (h1.symm.trans h2))
    | some e =>
      simp only [applyOp, runOp, hf] at h2
      simp only [entryRev, findEntry] at h1 h2
      by_cases heid : eid = eid0
      · subst heid
        rw [find?_filter_none (fun e : RegisteredEntry => e.EntryID == eid)
          (fun e : RegisteredEntry => e.EntryID != eid)
          (fun a ha => by
            have hne : ¬ a.EntryID = eid := by simpa using ha
            simp [hne])] at h2
        exact absurd h2 (by simp)
      · rw [find?_filter_frame (fun e : RegisteredEntry => e.EntryID == eid)
          (fun e : RegisteredEntry => e.EntryID != eid0)
          (fun a ha => by
            have hae : a.EntryID = eid := by simpa using ha
            simp [hae, heid])] at h2
        exact le_of_eq (Option.some.inj (h1.symm.trans h2))
  | createJoinToken now tok expiry =>
    cases hf : findToken s tok
    all_goals simp only [applyOp, runOp, hf] at h2
    all_goals exact le_of_eq (Option.some.inj (h1.symm.trans h2))
  | consumeJoinToken tok =>
    cases hf : findToken s tok
    all_goals simp only [applyOp, runOp, hf] at h2
    all_goals exact le_of_eq (Option.some.inj (h1.symm.trans h2))
  | pruneNodeEvents bound =>
    simp only [applyOp, runOp] at h2
    exact le_of_eq (Option.some.inj (h1.symm.trans h2))
  | pruneEntryEvents bound =>
    simp only [applyOp, runOp] at h2
    exact le_of_eq (Option.some.inj (h1.symm.trans h2))

theorem entryRev_mono_execFrom {eid : String} :
    ∀ (more : List Op) (s : StoreState) (r r' : Int),
      entryRev s eid = some r →
      entryRev (execFrom s more) eid = some r' →
      (∀ n : Nat, (entryRev (execFrom s (more.take n)) eid).isSome) →
      r ≤ r' := by
  intro more
  induction more with
  | nil =>
    intro s r r' h1 h2 _
    exact le_of_eq (Option.some.inj (h1.symm.trans h2))
  | cons op rest ih =>
    intro s r r' h1 h2 hcont
    have hs1 : (entryRev (applyOp op s) eid).isSome := hcont 1
    rcases Option.isSome_iff_exists.mp hs1 with ⟨r1, hr1⟩
    exact le_trans (entryRev_mono_applyOp op h1 hr1)
      (ih (applyOp op s) r1 r' hr1 h2 (fun n => hcont (n + 1)))

/-- **C1.** Every successful `UpdateRegisteredEntry` increases the stored
entry's `RevisionNumber` by exactly 1, and over any sequence of store
operations during which the entry stays present, its revision counter never
decreases. -/
theorem c1_revision_counter (s : StoreState) :
    (∀ (now : Nat) (eid : String) (expectedRev : Int) (u : EntryParams)
        (s' : StoreState) (e : RegisteredEntry),
      runOp (Op.updateEntry now eid expectedRev u) s = .ok s' →
      findEntry s eid = some e →
      entryRev s' eid = some (e.RevisionNumber + 1)) ∧
    (∀ (more : List Op) (eid : String) (r r' : Int),
      entryRev s eid = some r →
      entryRev (execFrom s more) eid = some r' →
      (∀ n : Nat, (entryRev (execFrom s (more.take n)) eid).isSome) →
      r ≤ r') := by
  constructor
  · intro now eid expectedRev u s' e hrun hfind
    simp only [runOp, hfind] at hrun
    by_cases hrev : expectedRev ≠ e.RevisionNumber
    · rw [if_pos hrev] at hrun
      exact absurd hrun (by simp)
    · rw [if_neg hrev] at hrun
      by_cases hall : (u.FederatesWith.all (fun td => (findBundle s td).isSome)) = true
      · rw [if_pos hall] at hrun
        cases hrun
        simp only [entryRev, findEntry]
        rw [find?_updateBy_self (fun e : RegisteredEntry => e.EntryID == eid)
          (applyEntryParams now u) (fun a ha => ha)]
        simp only [findEntry] at hfind
        rw [hfind]
        rfl
      · rw [if_neg hall] at hrun
        exact absurd hrun (by simp)
  · intro more eid r r' h1 h2 hcont
    exact entryRev_mono_execFrom more s r r' h1 h2 hcont

/-- **C2.** An `UpdateRegisteredEntry` whose expected revision differs from
the stored revision returns `Conflict` and leaves the whole store state —
in particular the stored entry with its Selector and DNSName children —
unchanged. -/
theorem c2_stale_revision_conflict (s : StoreState) (now : Nat) (eid : String)
    (expectedRev : Int) (u : EntryParams) (e : RegisteredEntry)
    (hfind : findEntry s eid = some e) (hne : expectedRev ≠ e.RevisionNumber) :
    runOp (Op.updateEntry now eid expectedRev u) s = .error .Conflict ∧
    applyOp (Op.updateEntry now eid expectedRev u) s = s := by
  have h1 : runOp (Op.updateEntry now eid expectedRev u) s = .error .Conflict := by
    simp only [runOp, hfind, if_pos hne]
  exact ⟨h1, by simp only [applyOp, h1]⟩

/-- **C3.** `PromoteNodeRotation` on a node with non-empty pending
serial/expiry succeeds, copies the pending serial/expiry into the current
`SerialNumber`/`ExpiresAt` and clears the pending fields; an immediately
following second `PromoteNodeRotation` on the same node succeeds as a no-op,
returning the state unchanged rather than an error. -/
theorem c3_promote_idempotent (s : StoreState) (now now2 : Nat) (sid : String)
    (n : AttestedNode) (ne : Nat)
    (hfind : findNode s sid = some n)
    (hserial : n.NewSerialNumber ≠ "")
    (hexpiry : n.NewExpiresAt = some ne) :
    runOp (Op.promoteNodeRotation now sid) s = .ok (promoteState now sid s) ∧
    findNode (promoteState now sid s) sid = some (promoteNode now n) ∧
    (promoteNode now n).SerialNumber = n.NewSerialNumber ∧
    (promoteNode now n).ExpiresAt = ne ∧
    (promoteNode now n).NewSerialNumber = "" ∧
    (promoteNode now n).NewExpiresAt = none ∧
    runOp (Op.promoteNodeRotation now2 sid) (promoteState now sid s) =
      .ok (promoteState now sid s) := by
  have hfind' : findNode (promoteState now sid s) sid = some (promoteNode now n) := by
    simp only [findNode, promoteState] at hfind ⊢
    rw [find?_updateBy_self (fun x : AttestedNode => x.SpiffeID == sid) (promoteNode now)
      (fun a ha => ha)]
    rw [hfind]
    rfl
  refine ⟨?_, hfind', rfl, ?_, rfl, rfl, ?_⟩
  · simp only [runOp, hfind, if_neg hserial]
    rfl
  · simp [promoteNode, hexpiry]
  · simp only [runOp, hfind']
    rw [if_pos (show (promoteNode now n).NewSerialNumber = "" from rfl)]

/-- **C4.** In every store state reachable by a sequence of operations, a
node's pending rotation fields `NewSerialNumber` and `NewExpiresAt` are
either both empty/unset or both set. -/
theorem c4_pending_fields_paired (ops : List Op) :
    ∀ n ∈ (execOps ops).nodes, (n.NewSerialNumber = "" ↔ n.NewExpiresAt = none) :=
  (inv_execOps ops).pendingPaired

/-- **C5.** In every reachable store state, bundle trust domains, node
SPIFFE IDs, entry ids and join tokens are each globally unique, and a create
of each kind whose unique key collides with a stored row fails with
`AlreadyExists`. -/
theorem c5_unique_keys (ops : List Op) :
    (((execOps ops).bundles.map Bundle.TrustDomain).Nodup ∧
     ((execOps ops).nodes.map AttestedNode.SpiffeID).Nodup ∧
     ((execOps ops).entries.map RegisteredEntry.EntryID).Nodup ∧
     ((execOps ops).joinTokens.map JoinToken.Token).Nodup) ∧
    (∀ (now : Nat) (td : String) (data : List Nat) (b : Bundle),
      findBundle (execOps ops) td = some b →
      runOp (Op.createBundle now td data) (execOps ops) = .error .AlreadyExists) ∧
    (∀ (now : Nat) (sid dataType serial : String) (expiresAt : Nat) (canReattest : Bool)
        (n : AttestedNode),
      findNode (execOps ops) sid = some n →
      runOp (Op.createNode now sid dataType serial expiresAt canReattest) (execOps ops) =
        .error .AlreadyExists) ∧
    (∀ (now : Nat) (eid : String) (u : EntryParams) (e : RegisteredEntry),
      findEntry (execOps ops) eid = some e →
      runOp (Op.createEntry now eid u) (execOps ops) = .error .AlreadyExists) ∧
    (∀ (now : Nat) (tok : String) (expiry : Int) (t : JoinToken),
      findToken (execOps ops) tok = some t →
      runOp (Op.createJoinToken now tok expiry) (execOps ops) = .error .AlreadyExists) := by
  refine ⟨⟨(inv_execOps ops).bundleKeys, (inv_execOps ops).nodeKeys,
    (inv_execOps ops).entryKeys, (inv_execOps ops).tokenKeys⟩, ?_, ?_, ?_, ?_⟩
  · intro now td data b hb
    simp only [runOp, hb]
  · intro now dataType serial expiresAt canReattest sid n hn
    simp only [runOp, hn]
  · intro now eid u e he
    simp only [runOp, he]
  · intro now tok expiry t ht
    simp only [runOp, ht]

/-- **C6.** `ConsumeJoinToken` succeeds exactly once: on a state holding the
token it succeeds and deletes the token row, and a second call with the same
token on the resulting state returns `NotFound`. -/
theorem c6_consume_join_token_once (s : StoreState) (tok : String) (t : JoinToken)
    (hfind : findToken s tok = some t) :
    runOp (Op.consumeJoinToken tok) s =
      .ok { s with joinTokens := s.joinTokens.filter (fun x => x.Token != tok) } ∧
    runOp (Op.consumeJoinToken tok)
      { s with joinTokens := s.joinTokens.filter (fun x => x.Token != tok) } =
      .error .NotFound := by
  have h2 : findToken
      { s with joinTokens := s.joinTokens.filter (fun x => x.Token != tok) } tok = none := by
    simp only [findToken]
    exact find?_filter_none (fun x : JoinToken => x.Token == tok)
      (fun x : JoinToken => x.Token != tok)
      (fun a ha => by
        have hne : ¬ a.Token = tok := by simpa using ha
        simp [hne]) _
  constructor
  · simp only [runOp, hfind]
  · simp only [runOp, h2]

/-- **C7.** Deleting a stored bundle succeeds regardless of how many entries
reference it, and afterwards every entry that was stored is still retrievable
and equal to its prior state in every field except its `FederatesWith` list,
from which the deleted trust domain is absent. -/
theorem c7_delete_bundle_frame (s : StoreState) (td : String) (b : Bundle)
    (hfind : findBundle s td = some b) :
    runOp (Op.deleteBundle td) s = .ok (deleteBundleState td s) ∧
    (∀ (eid : String) (e : RegisteredEntry), findEntry s eid = some e →
      findEntry (deleteBundleState td s) eid = some (stripFederation td e) ∧
      stripFederation td e =
        { e with FederatesWith := e.FederatesWith.filter (fun d => d != td) } ∧
      td ∉ (stripFederation td e).FederatesWith) := by
  constructor
  · simp only [runOp, hfind]
    rfl
  · intro eid e he
    refine ⟨?_, rfl, ?_⟩
    · simp only [findEntry, deleteBundleState] at he ⊢
      rw [find?_map_key (stripFederation td) (fun e : RegisteredEntry => e.EntryID == eid)
        (fun a => rfl)]
      rw [he]
      rfl
    · simp [stripFederation]

/-- **C8.** In every reachable store state, each event log carries strictly
increasing sequence ids; `FetchEventsSince` returns events with strictly
increasing ids and never skips a committed event with id above the cursor. -/
theorem c8_event_ids (ops : List Op) (lastSeenID : Nat) :
    ((execOps ops).nodeEvents.Pairwise (fun a b => a.model.ID < b.model.ID) ∧
     (execOps ops).entryEvents.Pairwise (fun a b => a.model.ID < b.model.ID)) ∧
    ((fetchNodeEventsSince (execOps ops) lastSeenID).Pairwise
        (fun a b => a.model.ID < b.model.ID) ∧
     (fetchEntryEventsSince (execOps ops) lastSeenID).Pairwise
        (fun a b => a.model.ID < b.model.ID)) ∧
    (∀ ev ∈ (execOps ops).nodeEvents, lastSeenID < ev.model.ID →
      ev ∈ fetchNodeEventsSince (execOps ops) lastSeenID) ∧
    (∀ ev ∈ (execOps ops).entryEvents, lastSeenID < ev.model.ID →
      ev ∈ fetchEntryEventsSince (execOps ops) lastSeenID) := by
  refine ⟨⟨(inv_execOps ops).nodeEventsSorted, (inv_execOps ops).entryEventsSorted⟩,
    ⟨pairwise_filter_of_pairwise (inv_execOps ops).nodeEventsSorted,
     pairwise_filter_of_pairwise (inv_execOps ops).entryEventsSorted⟩, ?_, ?_⟩
  · intro ev hmem hlt
    simp only [fetchNodeEventsSince]
    exact List.mem_filter.mpr ⟨hmem, by simpa using hlt⟩
  · intro ev hmem hlt
    simp only [fetchEntryEventsSince]
    exact List.mem_filter.mpr ⟨hmem, by simpa using hlt⟩

/-- **C9.** The legacy `V3AttestedNode` model and the current `AttestedNode`
model map to the same storage table `"attested_node_entries"`, and reading a
stored node through the V3 projection yields the same `SpiffeID`, `DataType`,
`SerialNumber` and `ExpiresAt` as the full model (the V3 model has no
pending-rotation fields and no `CanReattest` flag to receive). -/
theorem c9_v3_projection_agrees :
    AttestedNode.TableName = "attested_node_entries" ∧
    V3AttestedNode.TableName = "attested_node_entries" ∧
    ∀ n : AttestedNode,
      (v3Read n).SpiffeID = n.SpiffeID ∧
      (v3Read n).DataType = n.DataType ∧
      (v3Read n).SerialNumber = n.SerialNumber ∧
      (v3Read n).ExpiresAt = n.ExpiresAt ∧
      (v3Read n).model = n.model :=
  ⟨rfl, rfl, fun _ => ⟨rfl, rfl, rfl, rfl, rfl⟩⟩

/-- **C10.** The agent CLI registers the same factory result for the command
names `"api fetch"` and `"api fetch x509"` (both construct
`api.NewFetchX509Command()`), so for every behaviour and every argument list,
dispatching `api fetch` behaves identically to dispatching
`api fetch x509`. -/
theorem c10_api_fetch_alias :
    commandRegistry "api fetch" = some AgentCommand.fetchX509 ∧
    commandRegistry "api fetch x509" = some AgentCommand.fetchX509 ∧
    ∀ (behaviour : AgentCommand → List String → Int) (args : List String),
      dispatch behaviour "api fetch" args = dispatch behaviour "api fetch x509" args :=
  ⟨rfl, rfl, fun _ _ => rfl⟩

theorem c1_witness :
    entryRev c1StateAfter "entry-1" = some (c1Entry.RevisionNumber + 1) ∧ (5 : Int) ≤ 6 :=
  ⟨(c1_revision_counter c1State).1 9 "entry-1" 5 c1Params c1StateAfter c1Entry rfl rfl,
   (c1_revision_counter c1State).2 [c1Op] "entry-1" 5 6 rfl rfl
     (fun n => by
       cases n with
       | zero => decide
       | succ m =>
         simp only [List.take_succ_cons, List.take_nil]
         decide)⟩

theorem c2_witness :
    runOp (Op.updateEntry 9 "entry-1" 4 c1Params) c1State = .error .Conflict ∧
    applyOp (Op.updateEntry 9 "entry-1" 4 c1Params) c1State = c1State :=
  c2_stale_revision_conflict c1State 9 "entry-1" 4 c1Params c1Entry rfl (by decide)

theorem c3_witness :
    runOp (Op.promoteNodeRotation 7 "spiffe://example.org/agent") c3State =
      .ok (promoteState 7 "spiffe://example.org/agent" c3State) ∧
    findNode (promoteState 7 "spiffe://example.org/agent" c3State)
      "spiffe://example.org/agent" = some (promoteNode 7 c3Node) ∧
    (promoteNode 7 c3Node).SerialNumber = c3Node.NewSerialNumber ∧
    (promoteNode 7 c3Node).ExpiresAt = 200 ∧
    (promoteNode 7 c3Node).NewSerialNumber = "" ∧
    (promoteNode 7 c3Node).NewExpiresAt = none ∧
    runOp (Op.promoteNodeRotation 8 "spiffe://example.org/agent")
      (promoteState 7 "spiffe://example.org/agent" c3State) =
      .ok (promoteState 7 "spiffe://example.org/agent" c3State) :=
  c3_promote_idempotent c3State 7 8 "spiffe://example.org/agent" c3Node 200
    rfl (by decide) rfl

theorem c4_witness :
    c4Node ∈ (execOps c4Ops).nodes ∧
    (c4Node.NewSerialNumber = "" ↔ c4Node.NewExpiresAt = none) :=
  ⟨by decide, c4_pending_fields_paired c4Ops c4Node (by decide)⟩

theorem c5_witness :
    (((execOps c5Ops).bundles.map Bundle.TrustDomain).Nodup ∧
     ((execOps c5Ops).nodes.map AttestedNode.SpiffeID).Nodup ∧
     ((execOps c5Ops).entries.map RegisteredEntry.EntryID).Nodup ∧
     ((execOps c5Ops).joinTokens.map JoinToken.Token).Nodup) ∧
    runOp (Op.createBundle 3 "example.org" [9]) (execOps c5Ops) = .error .AlreadyExists :=
  ⟨(c5_unique_keys c5Ops).1,
   (c5_unique_keys c5Ops).2.1 3 "example.org" [9] c5Bundle rfl⟩

theorem c6_witness :
    runOp (Op.consumeJoinToken "tok-1") c6State =
      .ok { c6State with joinTokens := c6State.joinTokens.filter (fun x => x.Token != "tok-1") } ∧
    runOp (Op.consumeJoinToken "tok-1")
      { c6State with joinTokens := c6State.joinTokens.filter (fun x => x.Token != "tok-1") } =
      .error .NotFound :=
  c6_consume_join_token_once c6State "tok-1" c6Token rfl

theorem c7_witness :
    runOp (Op.deleteBundle "example.org") c7State =
      .ok (deleteBundleState "example.org" c7State) ∧
    (findEntry (deleteBundleState "example.org" c7State) "entry-7" =
      some (stripFederation "example.org" c7Entry) ∧
     stripFederation "example.org" c7Entry =
      { c7Entry with FederatesWith := c7Entry.FederatesWith.filter (fun d => d != "example.org") } ∧
     "example.org" ∉ (stripFederation "example.org" c7Entry).FederatesWith) :=
  ⟨(c7_delete_bundle_frame c7State "example.org" c7Bundle rfl).1,
   (c7_delete_bundle_frame c7State "example.org" c7Bundle rfl).2 "entry-7" c7Entry rfl⟩

theorem c8_witness :
    ((execOps c8Ops).nodeEvents.Pairwise (fun a b => a.model.ID < b.model.ID) ∧
     (execOps c8Ops).entryEvents.Pairwise (fun a b => a.model.ID < b.model.ID)) ∧
    ((fetchNodeEventsSince (execOps c8Ops) 0).Pairwise
        (fun a b => a.model.ID < b.model.ID) ∧
     (fetchEntryEventsSince (execOps c8Ops) 0).Pairwise
        (fun a b => a.model.ID < b.model.ID)) ∧
    c8Event ∈ fetchEntryEventsSince (execOps c8Ops) 0 :=
  ⟨(c8_event_ids c8Ops 0).1, (c8_event_ids c8Ops 0).2.1,
   (c8_event_ids c8Ops 0).2.2.2 c8Event (by decide) (by decide)⟩

end Spire
